import Mathlib

/-!
Verification of the NSE options watchlist pipeline
(`streamlit_daily_watchlist.py`) against its specification.

The Python source is shallowly embedded: prices, indicator values and
thresholds become exact rationals (`ℚ`), open-interest counts become `Int`,
Python `None` becomes `Option`, and a Python expression that can raise is
embedded as `Except`.  Library calls (`pandas` / `numpy`) are modelled by
their documented semantics, noted at each definition.
-/

namespace Watchlist

/-! ### Opportunity scorer (source lines 63–73)

`compute_scores(volatility, rsi, macd, signal, pcr)` mutates a local
`score` through a sequence of independent `if`/`elif` groups.  The caller
can pass `pcr = None` (the option-chain analyzer returns `None` on zero
call OI); in Python 3 the comparison `None > 1.2` raises `TypeError`, so
the embedding takes `Option ℚ` and returns `Except Unit Int`, erroring
exactly where the Python comparison would raise. -/

def compute_scores (volatility rsi macd signal : ℚ) (pcr : Option ℚ) :
    Except Unit Int :=
  let score : Int := 0
  let score := if volatility > 1/50 then score + 2
    else if volatility > 3/200 then score + 1 else score
  let score := if rsi < 30 then score + 1
    else if rsi > 70 then score - 1 else score
  let score := if macd > signal then score + 1 else score - 1
  match pcr with
  | none => Except.error ()
  | some p =>
      let score := if p > 6/5 then score + 1
        else if p < 4/5 then score + 1 else score
      Except.ok score

/-! Spec-side rule table (§4.3 of the spec): each row group evaluated
independently, results summed. -/

def volRule (volatility : ℚ) : Int :=
  if volatility > 1/50 then 2 else if volatility > 3/200 then 1 else 0

def rsiRule (rsi : ℚ) : Int :=
  if rsi < 30 then 1 else if rsi > 70 then -1 else 0

def macdRule (macd signal : ℚ) : Int :=
  if macd > signal then 1 else -1

def pcrRule (p : ℚ) : Int :=
  if p > 6/5 then 1 else if p < 4/5 then 1 else 0

lemma compute_scores_some (v r m s p : ℚ) :
    compute_scores v r m s (some p) =
      Except.ok (volRule v + rsiRule r + macdRule m s + pcrRule p) := by
  simp only [compute_scores, volRule, rsiRule, macdRule, pcrRule]
  split_ifs <;> rfl

lemma volRule_bounds (v : ℚ) : 0 ≤ volRule v ∧ volRule v ≤ 2 := by
  unfold volRule; split_ifs <;> omega

lemma rsiRule_bounds (r : ℚ) : -1 ≤ rsiRule r ∧ rsiRule r ≤ 1 := by
  unfold rsiRule; split_ifs <;> omega

lemma macdRule_bounds (m s : ℚ) : -1 ≤ macdRule m s ∧ macdRule m s ≤ 1 := by
  unfold macdRule; split_ifs <;> omega

lemma pcrRule_bounds (p : ℚ) : 0 ≤ pcrRule p ∧ pcrRule p ≤ 1 := by
  unfold pcrRule; split_ifs <;> omega

/-- C1: for every numeric input tuple, `compute_scores` returns the sum of
the four fixed threshold rules evaluated independently (no early exit):
+2 if volatility > 0.02 else +1 if volatility > 0.015; +1 if rsi < 30,
−1 if rsi > 70; +1 if macd > signal else −1; and the PCR rule, which adds
+1 for pcr > 1.2 or pcr < 0.8, never subtracts, and fires at most once. -/
theorem C1_compute_scores_rule_sum (volatility rsi macd signal pcr : ℚ) :
    compute_scores volatility rsi macd signal (some pcr) =
      Except.ok (volRule volatility + rsiRule rsi + macdRule macd signal +
        pcrRule pcr) ∧
    (0 ≤ pcrRule pcr ∧ pcrRule pcr ≤ 1) ∧
    ¬(pcr > 6/5 ∧ pcr < 4/5) := by
  refine ⟨compute_scores_some _ _ _ _ _, pcrRule_bounds pcr, ?_⟩
  rintro ⟨h1, h2⟩
  have : (4 : ℚ)/5 < 6/5 := by norm_num
  linarith

/-- C3 (evaluation at the failing input): with `pcr = None` the Python 3
comparison `pcr > 1.2` raises `TypeError`, so `compute_scores` errors
rather than returning the sum of the volatility, RSI and MACD rules
(here 2 + 1 + 1 = 4). -/
theorem C3_compute_scores_none_raises :
    compute_scores (3/100) 20 1 0 none = Except.error () ∧
    compute_scores (3/100) 20 1 0 none ≠
      Except.ok (volRule (3/100) + rsiRule 20 + macdRule 1 0) := by
  refine ⟨rfl, ?_⟩
  intro h
  exact Except.noConfusion ((rfl : compute_scores (3/100) 20 1 0 none =
    Except.error ()).symm.trans h)

/-- C4: `compute_scores` is deterministic (the embedding is a pure
function, as is the Python source, which reads no global state), and for
every numeric input its result is a score in the interval [−3, 5]. -/
theorem C4_compute_scores_deterministic_bounded (v r m s p : ℚ) :
    compute_scores v r m s (some p) = compute_scores v r m s (some p) ∧
    ∃ z : Int, compute_scores v r m s (some p) = Except.ok z ∧
      -3 ≤ z ∧ z ≤ 5 := by
  refine ⟨rfl, volRule v + rsiRule r + macdRule m s + pcrRule p,
    compute_scores_some v r m s p, ?_, ?_⟩
  · have h1 := volRule_bounds v
    have h2 := rsiRule_bounds r
    have h3 := macdRule_bounds m s
    have h4 := pcrRule_bounds p
    omega
  · have h1 := volRule_bounds v
    have h2 := rsiRule_bounds r
    have h3 := macdRule_bounds m s
    have h4 := pcrRule_bounds p
    omega

/-! ### Option-chain analyzer (source lines 50–61)

Each element of `data['records']['data']` is a per-strike record that may
or may not carry a `CE` and/or `PE` side; the field below stands for
`record['CE']['openInterest']` when the `CE` key is present. -/

structure StrikeRecord where
  CE : Option Int
  PE : Option Int
  strikePrice : ℚ
deriving DecidableEq

def analyzeStep (acc : Int × Int × List ℚ) (strike_data : StrikeRecord) :
    Int × Int × List ℚ :=
  let acc1 := match strike_data.CE with
    | some oi => (acc.1 + oi, acc.2.1, acc.2.2)
    | none => acc
  let acc2 := match strike_data.PE with
    | some oi => (acc1.1, acc1.2.1 + oi, acc1.2.2)
    | none => acc1
  (acc2.1, acc2.2.1, acc2.2.2 ++ [strike_data.strikePrice])

/-- Embedding of `analyze_option_chain`: the loop accumulating
`ce_oi_total`, `pe_oi_total` and `strikes`, then
`pcr = pe_oi_total / ce_oi_total if ce_oi_total != 0 else None`. -/
def analyze_option_chain (data : List StrikeRecord) :
    Int × Int × Option ℚ × List ℚ :=
  let r := data.foldl analyzeStep (0, 0, [])
  let pcr : Option ℚ :=
    if r.1 ≠ 0 then some ((r.2.1 : ℚ) / (r.1 : ℚ)) else none
  (r.1, r.2.1, pcr, r.2.2)

/-! Spec-side description (§4.2): totals are sums over all records, a
record missing a side contributes zero to that side; PCR is null exactly
when the call total is zero. -/

def totalCallOI (data : List StrikeRecord) : Int :=
  (data.map (fun s => s.CE.getD 0)).sum

def totalPutOI (data : List StrikeRecord) : Int :=
  (data.map (fun s => s.PE.getD 0)).sum

def analyzeSpec (data : List StrikeRecord) : Int × Int × Option ℚ × List ℚ :=
  (totalCallOI data, totalPutOI data,
   if totalCallOI data = 0 then none
   else some ((totalPutOI data : ℚ) / (totalCallOI data : ℚ)),
   data.map StrikeRecord.strikePrice)

lemma analyze_foldl (data : List StrikeRecord) (a b : Int) (str : List ℚ) :
    data.foldl analyzeStep (a, b, str) =
      (a + totalCallOI data, b + totalPutOI data,
       str ++ data.map StrikeRecord.strikePrice) := by
  induction data generalizing a b str with
  | nil => simp [totalCallOI, totalPutOI]
  | cons hd tl ih =>
      simp only [List.foldl_cons, totalCallOI, totalPutOI, List.map_cons,
        List.sum_cons] at ih ⊢
      cases hCE : hd.CE <;> cases hPE : hd.PE <;>
        simp only [analyzeStep, hCE, hPE, Option.getD_some, Option.getD_none,
          ih] <;>
        refine Prod.ext (by ring) (Prod.ext (by ring) (by simp))

/-- C2: for every snapshot, the analyzer returns exactly the spec-side
totals (a record missing a side contributes zero, never an error), the
strike list, and `pcr = totalPutOI / totalCallOI` when `totalCallOI ≠ 0`,
`null` when `totalCallOI = 0`. -/
theorem C2_analyze_option_chain_correct (data : List StrikeRecord) :
    analyze_option_chain data = analyzeSpec data := by
  simp only [analyze_option_chain, analyzeSpec, analyze_foldl, zero_add,
    List.nil_append]
  split_ifs with h1 h2 <;> first | rfl | exact absurd h2 h1

/-! ### The assembled result record's PCR field (source line 133)

`"PCR": round(pcr, 2) if pcr else None` — Python truthiness treats both
`None` and `0` as false, so a defined PCR of exactly 0 is reported as
`None`, and any other value is rounded to two decimals.  `round` in
Python 3 rounds half to even (banker's rounding), modelled exactly on
rationals. -/

def pyround2 (q : ℚ) : ℚ :=
  let s := q * 100
  let f : Int := Int.floor s
  let r := s - (f : ℚ)
  let n : Int :=
    if r < 1/2 then f
    else if 1/2 < r then f + 1
    else if f % 2 = 0 then f else f + 1
  (n : ℚ) / 100

def pcrField (pcr : Option ℚ) : Option ℚ :=
  match pcr with
  | none => none
  | some p => if p = 0 then none else some (pyround2 p)

/-- C10: the reported PCR field is `round(pcr, 2)` when the analyzer's
pcr is non-null and nonzero, and is null both when pcr is null and when
pcr is exactly 0. -/
theorem C10_pcr_field (pcr : Option ℚ) :
    (pcrField pcr = none ↔ (pcr = none ∨ pcr = some 0)) ∧
    (∀ p : ℚ, p ≠ 0 → pcr = some p → pcrField pcr = some (pyround2 p)) := by
  constructor
  · cases pcr with
    | none => simp [pcrField]
    | some p =>
        by_cases hp : p = 0 <;> simp [pcrField, hp]
  · intro p hp hpcr
    subst hpcr
    simp [pcrField, hp]

/-- Witness for C10 at pcr = 1/2: a nonzero PCR is reported rounded
(0.5 rounds to itself). -/
theorem C10_pcr_field_witness :
    pcrField (some (1/2)) = some (pyround2 (1/2)) :=
  (C10_pcr_field (some (1/2))).2 (1/2) (by norm_num) rfl

/-! ### Daily return (source lines 18–20)

`data['Close'].pct_change()` computes, per the pandas documentation, the
fractional change `close[i] / close[i-1] - 1`, with the first element
undefined (NaN, modelled as `none`). -/

def pct_change (xs : List ℚ) : List (Option ℚ) :=
  (List.range xs.length).map (fun i =>
    if i = 0 then none else some (xs.getD i 0 / xs.getD (i - 1) 0 - 1))

lemma getD_map_range {β : Type} (f : Nat → β) (n i : Nat) (d : β)
    (h : i < n) : ((List.range n).map f).getD i d = f i := by
  rw [List.getD_eq_getElem?_getD, List.getElem?_map, List.getElem?_range h]
  rfl

/-- C8: for every price series of length < 2 the dailyReturn series is
entirely null; dailyReturn[0] is null; and for 0 < i < length (with a
nonzero previous close) dailyReturn[i] = (close[i] − close[i−1]) / close[i−1]. -/
theorem C8_daily_return (xs : List ℚ) :
    (xs.length < 2 → ∀ v ∈ pct_change xs, v = none) ∧
    (0 < xs.length → (pct_change xs).getD 0 none = none) ∧
    (∀ i, i ≠ 0 → i < xs.length → xs.getD (i - 1) 0 ≠ 0 →
      (pct_change xs).getD i none =
        some ((xs.getD i 0 - xs.getD (i - 1) 0) / xs.getD (i - 1) 0)) := by
  refine ⟨?_, ?_, ?_⟩
  · intro h v hv
    simp only [pct_change] at hv
    rcases List.mem_map.mp hv with ⟨i, hi, rfl⟩
    have hi0 : i = 0 := by
      have := List.mem_range.mp hi
      omega
    simp [hi0]
  · intro h
    rw [pct_change, getD_map_range _ _ _ _ h]
    simp
  · intro i hi hlen hnz
    rw [pct_change, getD_map_range _ _ _ _ hlen, if_neg hi]
    rw [div_sub_one hnz]

/-- Witness for C8 at the series [1, 2]: dailyReturn[0] is null and
dailyReturn[1] = (2 − 1) / 1 = 1. -/
theorem C8_daily_return_witness :
    (pct_change [1, 2]).getD 0 none = none ∧
    (pct_change [1, 2]).getD 1 none =
      some ((([1, 2] : List ℚ).getD 1 0 - ([1, 2] : List ℚ).getD 0 0) /
        ([1, 2] : List ℚ).getD 0 0) :=
  ⟨(C8_daily_return [1, 2]).2.1 (by norm_num),
   (C8_daily_return [1, 2]).2.2 1 (by norm_num) (by norm_num) (by norm_num)⟩

/-! ### RSI (source lines 22–29)

`delta = Close.diff()` (NaN at index 0); `gain = delta.where(delta > 0,
0).fillna(0)` and `loss = (-delta.where(delta < 0, 0)).fillna(0)` (NaN
compares false, so index 0 becomes 0 in both); 14-period rolling means
(NaN for the first 13 indices); `rs = avg_gain / avg_loss`;
`rsi = 100 - 100/(1 + rs)`.  The division is numpy float division: both
averages are means of nonnegative values, and for `avg_loss = 0` it gives
`+inf` when `avg_gain > 0` (so `rsi = 100 - 100/inf = 100`) and NaN when
`avg_gain = 0`; that zero-denominator behaviour is written out explicitly
below, finite arithmetic is exact on `ℚ`. -/

inductive RsiOut where
  | nan : RsiOut
  | val : ℚ → RsiOut
deriving DecidableEq

def pydiff (xs : List ℚ) : List (Option ℚ) :=
  (List.range xs.length).map (fun i =>
    if i = 0 then none else some (xs.getD i 0 - xs.getD (i - 1) 0))

def gainSeries (closes : List ℚ) : List ℚ :=
  (pydiff closes).map (fun d =>
    match d with
    | none => 0
    | some x => if x > 0 then x else 0)

def lossSeries (closes : List ℚ) : List ℚ :=
  (pydiff closes).map (fun d =>
    match d with
    | none => 0
    | some x => if x < 0 then -x else 0)

def rollingMean (w : Nat) (xs : List ℚ) : List (Option ℚ) :=
  (List.range xs.length).map (fun i =>
    if i + 1 < w then none
    else some (((xs.take (i + 1)).drop (i + 1 - w)).sum / (w : ℚ)))

def rsiFromAvgs (g l : ℚ) : RsiOut :=
  if l = 0 then (if g = 0 then RsiOut.nan else RsiOut.val 100)
  else RsiOut.val (100 - 100 / (1 + g / l))

def calculate_rsi (closes : List ℚ) : List (Option RsiOut) :=
  List.zipWith (fun og ol =>
    match og, ol with
    | some g, some l => some (rsiFromAvgs g l)
    | some _, none => none
    | none, some _ => none
    | none, none => none)
    (rollingMean 14 (gainSeries closes))
    (rollingMean 14 (lossSeries closes))

lemma gainSeries_nonneg (closes : List ℚ) :
    ∀ x ∈ gainSeries closes, 0 ≤ x := by
  intro x hx
  rcases List.mem_map.mp hx with ⟨d, _, rfl⟩
  cases d with
  | none => exact le_refl 0
  | some y =>
      by_cases hy : y > 0
      · simp only [hy, if_pos]
        linarith
      · simp only [hy, if_neg, not_false_iff]
        exact le_refl 0

lemma lossSeries_nonneg (closes : List ℚ) :
    ∀ x ∈ lossSeries closes, 0 ≤ x := by
  intro x hx
  rcases List.mem_map.mp hx with ⟨d, _, rfl⟩
  cases d with
  | none => exact le_refl 0
  | some y =>
      by_cases hy : y < 0
      · simp only [hy, if_pos]
        linarith
      · simp only [hy, if_neg, not_false_iff]
        exact le_refl 0

lemma rollingMean_nonneg (w : Nat) (xs : List ℚ) (i : Nat) (m : ℚ)
    (hpos : ∀ x ∈ xs, 0 ≤ x)
    (h : (rollingMean w xs)[i]? = some (some m)) : 0 ≤ m := by
  rcases Nat.lt_or_ge i xs.length with hlt | hge
  · have hr : (rollingMean w xs)[i]? =
        some (if i + 1 < w then none
          else some (((xs.take (i + 1)).drop (i + 1 - w)).sum / (w : ℚ))) := by
      rw [rollingMean, List.getElem?_map, List.getElem?_range hlt]
      rfl
    rw [hr] at h
    by_cases hw : i + 1 < w
    · rw [if_pos hw] at h
      exact absurd (Option.some.inj h) (by simp)
    · rw [if_neg hw] at h
      have hm := Option.some.inj (Option.some.inj h)
      subst hm
      apply div_nonneg
      · apply List.sum_nonneg
        intro x hx
        exact hpos x (List.mem_of_mem_take (List.mem_of_mem_drop hx))
      · exact_mod_cast Nat.zero_le w
  · rw [rollingMean] at h
    rw [List.getElem?_eq_none (by simpa using hge)] at h
    exact absurd h (by simp)

lemma rsiFromAvgs_bounds (g l x : ℚ) (hg : 0 ≤ g) (hl : 0 ≤ l)
    (h : rsiFromAvgs g l = RsiOut.val x) : 0 ≤ x ∧ x ≤ 100 := by
  rw [rsiFromAvgs] at h
  by_cases hl0 : l = 0
  · rw [if_pos hl0] at h
    by_cases hg0 : g = 0
    · rw [if_pos hg0] at h
      exact absurd h (by simp)
    · rw [if_neg hg0] at h
      have := RsiOut.val.inj h
      subst this
      norm_num
  · rw [if_neg hl0] at h
    have := RsiOut.val.inj h
    subst this
    have hlpos : 0 < l := lt_of_le_of_ne hl (Ne.symm hl0)
    have hrs : 0 ≤ g / l := div_nonneg hg (le_of_lt hlpos)
    have hden : (1 : ℚ) ≤ 1 + g / l := by linarith
    have hq1 : 100 / (1 + g / l) ≤ 100 :=
      div_le_self (by norm_num) hden
    have hq2 : 0 < 100 / (1 + g / l) :=
      div_pos (by norm_num) (by linarith)
    constructor <;> linarith

/-- C6: every defined (non-NaN) RSI value produced by `calculate_rsi`
lies in [0, 100]; and whenever the 14-period rolling average loss is 0
while the rolling average gain is positive, the RSI is exactly 100 (the
numpy division yields +inf, not an error). -/
theorem C6_rsi_bounds_and_saturation (closes : List ℚ) (i : Nat) :
    (∀ x : ℚ,
      (calculate_rsi closes).getD i none = some (RsiOut.val x) →
        0 ≤ x ∧ x ≤ 100) ∧
    (∀ g : ℚ,
      (rollingMean 14 (lossSeries closes)).getD i none = some 0 →
      (rollingMean 14 (gainSeries closes)).getD i none = some g → 0 < g →
      (calculate_rsi closes).getD i none = some (RsiOut.val 100)) := by
  constructor
  · intro x h
    rw [List.getD_eq_getElem?_getD] at h
    cases hidx : (calculate_rsi closes)[i]? with
    | none => rw [hidx] at h; exact absurd h (by simp)
    | some o =>
        rw [hidx] at h
        have ho : o = some (RsiOut.val x) := h
        subst ho
        rw [calculate_rsi] at hidx
        rcases List.getElem?_zipWith_eq_some.mp hidx with ⟨og, ol, hog, hol, hf⟩
        cases og with
        | none => cases ol <;> exact absurd hf (by simp)
        | some g =>
            cases ol with
            | none => exact absurd hf (by simp)
            | some l =>
                have hfl : rsiFromAvgs g l = RsiOut.val x :=
                  Option.some.inj hf
                have hgnn : 0 ≤ g :=
                  rollingMean_nonneg 14 (gainSeries closes) i g
                    (gainSeries_nonneg closes) hog
                have hlnn : 0 ≤ l :=
                  rollingMean_nonneg 14 (lossSeries closes) i l
                    (lossSeries_nonneg closes) hol
                exact rsiFromAvgs_bounds g l x hgnn hlnn hfl
  · intro g hloss hgain hgpos
    rw [List.getD_eq_getElem?_getD] at hloss hgain
    have hol : (rollingMean 14 (lossSeries closes))[i]? = some (some 0) := by
      cases hidx : (rollingMean 14 (lossSeries closes))[i]? with
      | none => rw [hidx] at hloss; exact absurd hloss (by simp)
      | some o =>
          rw [hidx] at hloss
          simp only [Option.getD_some] at hloss
          rw [hloss]
    have hog : (rollingMean 14 (gainSeries closes))[i]? = some (some g) := by
      cases hidx : (rollingMean 14 (gainSeries closes))[i]? with
      | none => rw [hidx] at hgain; exact absurd hgain (by simp)
      | some o =>
          rw [hidx] at hgain
          simp only [Option.getD_some] at hgain
          rw [hgain]
    have hz : (calculate_rsi closes)[i]? = some (some (rsiFromAvgs g 0)) := by
      rw [calculate_rsi]
      exact List.getElem?_zipWith_eq_some.mpr ⟨some g, some 0, hog, hol, rfl⟩
    rw [List.getD_eq_getElem?_getD, hz]
    have : rsiFromAvgs g 0 = RsiOut.val 100 := by
      rw [rsiFromAvgs, if_pos rfl, if_neg (ne_of_gt hgpos)]
    rw [this]
    rfl

def wcloses : List ℚ :=
  [1, 2, 3, 4, 5, 6, 7, 8, 9, 10, 11, 12, 13, 14, 15, 16]

lemma wpydiff : pydiff wcloses =
    [none, some 1, some 1, some 1, some 1, some 1, some 1, some 1, some 1,
     some 1, some 1, some 1, some 1, some 1, some 1, some 1] := by
  rw [pydiff]
  rw [show List.range wcloses.length =
    [0, 1, 2, 3, 4, 5, 6, 7, 8, 9, 10, 11, 12, 13, 14, 15] from rfl]
  norm_num [wcloses, List.map_cons]

lemma wgain : gainSeries wcloses =
    [0, 1, 1, 1, 1, 1, 1, 1, 1, 1, 1, 1, 1, 1, 1, 1] := by
  rw [gainSeries, wpydiff]
  norm_num [List.map_cons]

lemma wloss : lossSeries wcloses =
    [0, 0, 0, 0, 0, 0, 0, 0, 0, 0, 0, 0, 0, 0, 0, 0] := by
  rw [lossSeries, wpydiff]
  norm_num [List.map_cons]

lemma wgainMean : (rollingMean 14 (gainSeries wcloses)).getD 15 none =
    some 1 := by
  rw [rollingMean, wgain]
  rw [getD_map_range _ _ _ _ (by norm_num)]
  rw [show ((([0, 1, 1, 1, 1, 1, 1, 1, 1, 1, 1, 1, 1, 1, 1, 1] : List ℚ).take
      (15 + 1)).drop (15 + 1 - 14)) =
    [1, 1, 1, 1, 1, 1, 1, 1, 1, 1, 1, 1, 1, 1] from rfl]
  norm_num

lemma wlossMean : (rollingMean 14 (lossSeries wcloses)).getD 15 none =
    some 0 := by
  rw [rollingMean, wloss]
  rw [getD_map_range _ _ _ _ (by norm_num)]
  rw [show ((([0, 0, 0, 0, 0, 0, 0, 0, 0, 0, 0, 0, 0, 0, 0, 0] : List ℚ).take
      (15 + 1)).drop (15 + 1 - 14)) =
    [0, 0, 0, 0, 0, 0, 0, 0, 0, 0, 0, 0, 0, 0] from rfl]
  norm_num

/-- Witness for C6 on a strictly increasing 16-close series: the window's
average loss is 0, its average gain is 1, and the RSI saturates at
exactly 100. -/
theorem C6_rsi_bounds_and_saturation_witness :
    (calculate_rsi wcloses).getD 15 none = some (RsiOut.val 100) :=
  (C6_rsi_bounds_and_saturation wcloses 15).2 1
    wlossMean wgainMean (by norm_num)

/-! ### The per-ticker scan loop (source lines 104–141)

Each iteration runs the whole fetch-and-process body for one ticker inside
`try`/`except`: on success the assembled row is appended to `all_results`,
on any exception a diagnostic `st.error` message is emitted and the loop
continues with the next ticker.  The body is abstracted as a function
returning a row or an error. -/

def run_scan_loop {α : Type} (process : String → Except String α)
    (tickers : List String) : List α × List String :=
  tickers.foldl
    (fun acc ticker =>
      match process ticker with
      | Except.ok r => (acc.1 ++ [r], acc.2)
      | Except.error e =>
          (acc.1, acc.2 ++ ["Error scanning " ++ ticker ++ ": " ++ e]))
    ([], [])

def exOk {α : Type} (x : Except String α) : Bool :=
  match x with
  | Except.ok _ => true
  | Except.error _ => false

def scanResults {α : Type} (process : String → Except String α)
    (tickers : List String) : List α :=
  tickers.filterMap (fun t => (process t).toOption)

def scanDiagnostics {α : Type} (process : String → Except String α)
    (tickers : List String) : List String :=
  tickers.filterMap (fun t =>
    match process t with
    | Except.ok _ => none
    | Except.error e => some ("Error scanning " ++ t ++ ": " ++ e))

lemma scanResults_cons_ok {α : Type} (process : String → Except String α)
    (hd : String) (tl : List String) (r : α) (h : process hd = Except.ok r) :
    scanResults process (hd :: tl) = r :: scanResults process tl := by
  simp [scanResults, List.filterMap_cons, h, Except.toOption]

lemma scanResults_cons_error {α : Type} (process : String → Except String α)
    (hd : String) (tl : List String) (e : String)
    (h : process hd = Except.error e) :
    scanResults process (hd :: tl) = scanResults process tl := by
  simp [scanResults, List.filterMap_cons, h, Except.toOption]

lemma scanDiagnostics_cons_ok {α : Type} (process : String → Except String α)
    (hd : String) (tl : List String) (r : α) (h : process hd = Except.ok r) :
    scanDiagnostics process (hd :: tl) = scanDiagnostics process tl := by
  simp [scanDiagnostics, List.filterMap_cons, h]

lemma scanDiagnostics_cons_error {α : Type}
    (process : String → Except String α) (hd : String) (tl : List String)
    (e : String) (h : process hd = Except.error e) :
    scanDiagnostics process (hd :: tl) =
      ("Error scanning " ++ hd ++ ": " ++ e) :: scanDiagnostics process tl := by
  simp [scanDiagnostics, List.filterMap_cons, h]

lemma run_scan_loop_foldl {α : Type} (process : String → Except String α)
    (tickers : List String) (rs : List α) (ds : List String) :
    tickers.foldl
      (fun acc ticker =>
        match process ticker with
        | Except.ok r => (acc.1 ++ [r], acc.2)
        | Except.error e =>
            (acc.1, acc.2 ++ ["Error scanning " ++ ticker ++ ": " ++ e]))
      (rs, ds) =
      (rs ++ scanResults process tickers,
       ds ++ scanDiagnostics process tickers) := by
  induction tickers generalizing rs ds with
  | nil => simp [scanResults, scanDiagnostics]
  | cons hd tl ih =>
      cases h : process hd with
      | ok r =>
          simp only [List.foldl_cons, h]
          rw [ih, scanResults_cons_ok process hd tl r h,
            scanDiagnostics_cons_ok process hd tl r h]
          simp
      | error e =>
          simp only [List.foldl_cons, h]
          rw [ih, scanResults_cons_error process hd tl e h,
            scanDiagnostics_cons_error process hd tl e h]
          simp

lemma scanResults_length {α : Type} (process : String → Except String α)
    (tickers : List String) :
    (scanResults process tickers).length =
      tickers.countP (fun t => exOk (process t)) := by
  induction tickers with
  | nil => rfl
  | cons hd tl ih =>
      cases h : process hd with
      | ok r =>
          rw [scanResults_cons_ok process hd tl r h]
          simp [List.countP_cons, exOk, h, ih]
      | error e =>
          rw [scanResults_cons_error process hd tl e h]
          simp [List.countP_cons, exOk, h, ih]

lemma scan_lengths {α : Type} (process : String → Except String α)
    (tickers : List String) :
    (scanResults process tickers).length +
      (scanDiagnostics process tickers).length = tickers.length := by
  induction tickers with
  | nil => rfl
  | cons hd tl ih =>
      cases h : process hd with
      | ok r =>
          rw [scanResults_cons_ok process hd tl r h,
            scanDiagnostics_cons_ok process hd tl r h]
          simp only [List.length_cons, List.length_cons] at ih ⊢
          omega
      | error e =>
          rw [scanResults_cons_error process hd tl e h,
            scanDiagnostics_cons_error process hd tl e h]
          simp only [List.length_cons] at ih ⊢
          omega

/-- C7: a failure on one ticker never aborts the scan — the loop yields
exactly the successful rows in order plus one diagnostic per failed
ticker, every ticker contributes to exactly one of the two lists, and in
particular 10 configured tickers with exactly 1 failure yield a 9-row
table and exactly one diagnostic. -/
theorem C7_scan_isolated_failures {α : Type}
    (process : String → Except String α) (tickers : List String) :
    run_scan_loop process tickers =
      (scanResults process tickers, scanDiagnostics process tickers) ∧
    (run_scan_loop process tickers).1.length +
      (run_scan_loop process tickers).2.length = tickers.length ∧
    (tickers.length = 10 →
      tickers.countP (fun t => exOk (process t)) = 9 →
      (run_scan_loop process tickers).1.length = 9 ∧
        (run_scan_loop process tickers).2.length = 1) := by
  have hmain : run_scan_loop process tickers =
      (scanResults process tickers, scanDiagnostics process tickers) := by
    rw [run_scan_loop, run_scan_loop_foldl]
    simp
  refine ⟨hmain, ?_, ?_⟩
  · rw [hmain]
    exact scan_lengths process tickers
  · intro h10 h9
    rw [hmain]
    have h1 := scanResults_length process tickers
    have h2 := scan_lengths process tickers
    constructor
    · show (scanResults process tickers).length = 9
      omega
    · show (scanDiagnostics process tickers).length = 1
      omega

def wtickers : List String :=
  ["T0", "T1", "T2", "T3", "T4", "T5", "T6", "T7", "T8", "T9"]

def wproc : String → Except String Int := fun t =>
  if t = "T3" then Except.error "boom" else Except.ok 0

/-- Witness for C7: 10 tickers, exactly one of which fails, yield 9 rows
and 1 diagnostic. -/
theorem C7_scan_isolated_failures_witness :
    (run_scan_loop wproc wtickers).1.length = 9 ∧
      (run_scan_loop wproc wtickers).2.length = 1 :=
  (C7_scan_isolated_failures wproc wtickers).2.2 (by rfl) (by rfl)

/-! ### Post-loop phase: DataFrame, CSV export (source lines 142–154)

`pd.DataFrame(all_results)` built from an empty list has no columns
(pandas semantics); `df.sort_values(by="Opportunity Score")` then raises
`KeyError` because the sort column is absent, aborting the run before the
CSV at line 153 is ever written.  `df.to_csv` writes one header line
followed by one line per row. -/

def watchlistColumns : List String :=
  ["Ticker", "Last Close", "Volume", "Volatility", "RSI", "MACD", "Signal",
   "Support", "Resistance", "Call OI", "Put OI", "PCR", "Opportunity Score"]

def to_csv (columns : List String) (rows : List (List String)) :
    List String :=
  String.intercalate "," columns :: rows.map (String.intercalate ",")

def dfColumns {α : Type} (all_results : List α) : List String :=
  if all_results.isEmpty then [] else watchlistColumns

def run_scan_export {α : Type} (rowOf : α → List String)
    (all_results : List α) : Except String (List String) :=
  if "Opportunity Score" ∈ dfColumns all_results then
    Except.ok (to_csv (dfColumns all_results) (all_results.map rowOf))
  else Except.error "KeyError: Opportunity Score"

/-- C9: when every ticker failed (`all_results` empty) the post-loop
phase is fatal — the sort on the column-less empty frame raises before
any CSV is produced — while `to_csv` on an empty-but-valid table (0 rows,
the full column set) succeeds and yields exactly the header line. -/
theorem C9_empty_run_fatal_empty_export_header {α : Type}
    (rowOf : α → List String) (all_results : List α) :
    (all_results = [] →
      run_scan_export rowOf all_results =
        Except.error "KeyError: Opportunity Score") ∧
    to_csv watchlistColumns [] = [String.intercalate "," watchlistColumns] ∧
    (to_csv watchlistColumns []).length = 1 := by
  refine ⟨?_, rfl, rfl⟩
  intro h
  subst h
  rfl

/-- Witness for C9: the empty scan result aborts with the KeyError. -/
theorem C9_empty_run_fatal_empty_export_header_witness :
    run_scan_export (fun _ : Int => ([] : List String)) [] =
      Except.error "KeyError: Opportunity Score" :=
  (C9_empty_run_fatal_empty_export_header
    (fun _ : Int => ([] : List String)) []).1 rfl

/-! ### Top-5 selection (source lines 146–149)

`df.sort_values(by="Opportunity Score", ascending=False).head(5)`.
pandas documents `sort_values`' default `kind` as `quicksort` and states
that only `mergesort`/`stable` are stable, so all the call guarantees is
*some* permutation of the rows ordered by descending score — the order of
equal-score rows is unspecified.  The call is therefore embedded as a
relation, and `head(5)` as `take 5` of the sorted permutation.  A row is
reduced to its original position and its score, which is all the sort
consults. -/

structure Entry where
  idx : Nat
  score : Int
deriving DecidableEq

def SortValuesByScoreDesc (inp out : List Entry) : Prop :=
  inp.Perm out ∧ out.Pairwise (fun a b => b.score ≤ a.score)

def top_stocks (df top : List Entry) : Prop :=
  ∃ s, SortValuesByScoreDesc df s ∧ top = s.take 5

instance : IsAntisymm Int (fun x y => y ≤ x) :=
  ⟨fun _ _ h1 h2 => le_antisymm h2 h1⟩

/-- C5 counterexample: the sort the code performs is not guaranteed
stable.  On a two-row table with equal scores, the output that swaps the
rows satisfies everything `sort_values` (default kind, i.e. quicksort)
guarantees, yet violates the claimed first-seen tie order. -/
theorem C5_sort_not_stable_counterexample :
    SortValuesByScoreDesc [⟨0, 1⟩, ⟨1, 1⟩] [⟨1, 1⟩, ⟨0, 1⟩] ∧
    ([⟨1, 1⟩, ⟨0, 1⟩] : List Entry) ≠ [⟨0, 1⟩, ⟨1, 1⟩] := by
  refine ⟨⟨?_, ?_⟩, ?_⟩ <;> decide

/-- C5 amended: the result table is some permutation of the rows sorted
by score descending, of which the first 5 are exposed; tie order among
equal scores is unspecified (pandas' default sort kind is not stable).
For the spec's example — scores [4, −1, 2], which are pairwise distinct —
the sorted order is unique, and top-N(2) yields scores [4, 2] in that
order. -/
theorem C5_top_stocks_sorted_head (df top : List Entry)
    (h : top_stocks df top) :
    (∃ s, df.Perm s ∧ s.Pairwise (fun a b => b.score ≤ a.score) ∧
      top = s.take 5) ∧
    (df.map Entry.score = [4, -1, 2] →
      (top.take 2).map Entry.score = [4, 2]) := by
  obtain ⟨s, ⟨hperm, hsort⟩, htop⟩ := h
  refine ⟨⟨s, hperm, hsort, htop⟩, ?_⟩
  intro hdf
  have hmapperm : (s.map Entry.score).Perm [4, -1, 2] := by
    have hp := (hperm.map Entry.score).symm
    rwa [hdf] at hp
  have hmapsorted : (s.map Entry.score).Pairwise (fun x y : Int => y ≤ x) :=
    List.Pairwise.map Entry.score (fun _ _ hab => hab) hsort
  have heq : s.map Entry.score = [4, 2, -1] :=
    List.eq_of_perm_of_sorted
      (hmapperm.trans (by decide)) hmapsorted (by decide)
  have hlen : s.length = 3 := by
    have h3 := congrArg List.length heq
    simpa using h3
  have htake : top = s := by
    rw [htop]
    exact List.take_of_length_le (by omega)
  rw [htake, List.map_take, heq]
  rfl

def wdf : List Entry := [⟨0, 4⟩, ⟨1, -1⟩, ⟨2, 2⟩]

def wsorted : List Entry := [⟨0, 4⟩, ⟨2, 2⟩, ⟨1, -1⟩]

/-- Witness for C5 (amended) at the spec's 3-row example. -/
theorem C5_top_stocks_sorted_head_witness :
    (wsorted.take 2).map Entry.score = [4, 2] :=
  (C5_top_stocks_sorted_head wdf wsorted
    ⟨wsorted, ⟨by decide, by decide⟩, by decide⟩).2 (by decide)

end Watchlist
